import Mathlib

/-!
# twitter-radar: the navigation and data-loading core of `src/App.jsx`

A shallow embedding of the React components `App` and `ListDetail`.

* Every `useState` cell is a field of `AppState` (component `App`) or of
  `DetailState` (component `ListDetail`).
* Every event handler and every continuation of an `await` is a pure function on
  those records.
* `World` adds what the React runtime and the network hold: the mounted
  `ListDetail` instance (if any) and the asynchronous calls still in flight.
* `step` dispatches one event (a click that the rendered tree offers, or the
  resolution of one call in flight) and then `commit`s the new render: it mounts,
  keeps or unmounts `ListDetail` and runs the `useEffect`s whose dependencies changed.
  Calls in flight may resolve in any order.

What is assumed of React:

* a handler runs only if the element carrying it is in the tree rendered last;
* after a handler or continuation has run, the tree is rendered and committed before the
  next event is dispatched;
* a component keeps its hook state while it is rendered at the same place, loses it when
  it is not rendered, and starts from the initial values when it is rendered again;
* a state setter of an unmounted instance has no effect on any mounted instance;
* an effect runs after the mount and after each commit in which a dependency changed.
-/

namespace TwitterRadar

/-! ## Rows of the remote tables -/

/-- The `user` object of a Supabase session (`user.id`, `user.email`). -/
structure User where
  id : Nat
  email : String
  deriving DecidableEq, Repr

/-- The session handed to `getSession().then` and to the `onAuthStateChange` listener. -/
structure Session where
  user : User
  deriving DecidableEq, Repr

/-- The column `lists.visibility`; the views test `=== 'PUBLIC'` only. -/
inductive Visibility
  | PUBLIC
  | PRIVATE
  deriving DecidableEq, Repr

/-- One row of the table `lists`. -/
structure ListRow where
  id : Nat
  name : String
  description : Option String
  visibility : Visibility
  target_count : Option Nat
  last_report_at : Option Nat
  deriving DecidableEq, Repr

/-- One row of the table `monitor_targets`. -/
structure Target where
  id : Nat
  screen_name : String
  display_name : Option String
  status : Option String
  deriving DecidableEq, Repr

/-- One row of `list_targets` as selected by `'target_id, monitor_targets(*)'`. -/
structure LinkRow where
  target_id : Nat
  monitor_targets : Target
  deriving DecidableEq, Repr

/-- One row of the table `daily_reports`. -/
structure Report where
  id : Nat
  list_id : Nat
  report_date : Nat
  tweet_count : Option Nat
  content : String
  deriving DecidableEq, Repr

/-! ## Component state -/

/-- The values of `currentPage`: `'home'`, `'list_detail'`, `'settings'`. -/
inductive Page
  | home
  | list_detail
  | settings
  deriving DecidableEq, Repr

/-- The values of `activeTab`: `'targets'`, `'reports'`. -/
inductive Tab
  | targets
  | reports
  deriving DecidableEq, Repr

/-- The six `useState` cells of `App` (lines 10-15). -/
structure AppState where
  user : Option User
  loading : Bool
  currentPage : Page
  lists : List ListRow
  selectedList : Option ListRow
  isMobileMenuOpen : Bool
  deriving DecidableEq, Repr

/-- The five `useState` cells of `ListDetail` (lines 271-275). -/
structure DetailState where
  activeTab : Tab
  targets : List Target
  reports : List Report
  selectedReport : Option Report
  loading : Bool
  deriving DecidableEq, Repr

/-- The initial values of the `useState` cells of `App`. -/
def AppState.initial : AppState :=
  { user := none, loading := true, currentPage := Page.home, lists := [],
    selectedList := none, isMobileMenuOpen := false }

/-- The initial values of the `useState` cells of `ListDetail`. -/
def DetailState.initial : DetailState :=
  { activeTab := Tab.targets, targets := [], reports := [], selectedReport := none,
    loading := true }

/-! ## Handlers and continuations of `App` -/

/-- Line 20-21, the continuation of `getSession()`:
`setUser(session?.user ?? null); setLoading(false)`. -/
def getSessionThen (session : Option Session) (a : AppState) : AppState :=
  { a with user := session.map Session.user, loading := false }

/-- Line 25, the `onAuthStateChange` listener: `setUser(session?.user ?? null)`. -/
def onAuthStateChange (session : Option Session) (a : AppState) : AppState :=
  { a with user := session.map Session.user }

/-- Line 42, the continuation of the query of `fetchLists`: `if (data) setLists(data)`.
A failed query has `data = null`; an empty array is truthy in JavaScript. -/
def fetchListsThen (data : Option (List ListRow)) (a : AppState) : AppState :=
  match data with
  | some rows => { a with lists := rows }
  | none => a

/-- Lines 56-57, what `handleLogout` does after `await supabase.auth.signOut()`:
`setUser(null); setCurrentPage('home')`. The value the call resolved with is not bound. -/
def handleLogoutThen (a : AppState) : AppState :=
  { a with user := none, currentPage := Page.home }

/-- Lines 60-63: `setSelectedList(list); setCurrentPage('list_detail')`. -/
def handleListClick (list : ListRow) (a : AppState) : AppState :=
  { a with selectedList := some list, currentPage := Page.list_detail }

/-- Line 153-156, the ids of the sidebar's `menuItems`. -/
def menuItems : List Page := [Page.home, Page.settings]

/-- Line 179, a sidebar item: `setCurrentPage(item.id); onClose()`, where `onClose` is
`() => setIsMobileMenuOpen(false)` (line 85). -/
def sidebarItemClick (item : Page) (a : AppState) : AppState :=
  { a with currentPage := item, isMobileMenuOpen := false }

/-- Line 110, `onBack`: `setCurrentPage('home')`. -/
def onBack (a : AppState) : AppState :=
  { a with currentPage := Page.home }

/-- Line 94, `onOpenMenu`, and line 85, `onClose`. -/
def setIsMobileMenuOpen (b : Bool) (a : AppState) : AppState :=
  { a with isMobileMenuOpen := b }

/-- Lines 65-71 and 107-113: the list that the render passes to `<ListDetail>`, if it
renders one: nothing but the spinner while `loading`, and `ListDetail` only when
`currentPage === 'list_detail' && selectedList`. -/
def shownList (a : AppState) : Option ListRow :=
  if a.loading then none
  else if a.currentPage = Page.list_detail then a.selectedList
  else none

/-! ## Handlers and continuations of `ListDetail` -/

/-- Lines 329 and 332, the tab buttons: `setActiveTab(tab)`. -/
def setActiveTab (tab : Tab) (d : DetailState) : DetailState :=
  { d with activeTab := tab }

/-- Line 384, the button of a report: `setSelectedReport(report)`. -/
def setSelectedReport (report : Report) (d : DetailState) : DetailState :=
  { d with selectedReport := some report }

/-- Line 282, the start of `loadData`: `setLoading(true)`. -/
def loadDataStart (d : DetailState) : DetailState :=
  { d with loading := true }

/-- Lines 290-292, after the first `await` of `loadData`:
`if (listTargets) setTargets(listTargets.map(lt => lt.monitor_targets))`. -/
def loadDataTargets (listTargets : Option (List LinkRow)) (d : DetailState) : DetailState :=
  match listTargets with
  | some rows => { d with targets := rows.map LinkRow.monitor_targets }
  | none => d

/-- Lines 301-306, after the second `await` of `loadData`:
`if (reportsData) { setReports(reportsData); if (reportsData.length > 0)
setSelectedReport(reportsData[0]) }` and then `setLoading(false)`. -/
def loadDataReports (reportsData : Option (List Report)) (d : DetailState) : DetailState :=
  let d1 :=
    match reportsData with
    | some rows =>
      match rows with
      | r :: _ => { d with reports := rows, selectedReport := some r }
      | [] => { d with reports := rows }
    | none => d
  { d1 with loading := false }

/-! ## The runtime: mounted instance and calls in flight -/

/-- The `await` at which a running `loadData` is suspended. -/
inductive Stage
  | targets
  | reports
  deriving DecidableEq, Repr

/-- A running `loadData`: the instance of `ListDetail` whose setters it closed over,
the `list.id` it closed over (used in both `.eq('list_id', list.id)`), and where it waits. -/
structure Load where
  inst : Nat
  listId : Nat
  stage : Stage
  deriving DecidableEq, Repr

/-- A mounted instance of `ListDetail`: its identity and its hook state. Its `list` prop
is `shownList` of the application state. -/
structure DetailInst where
  inst : Nat
  st : DetailState
  deriving DecidableEq, Repr

/-- The application together with the runtime.
`sessionPending`: the `getSession()` promise of line 19 is unresolved.
`listFetches`: the calls of `fetchLists` awaiting their query, by issue number, oldest first.
`signOuts`: the calls of `handleLogout` awaiting `signOut()`.
`loads`: the calls of `loadData` in flight, oldest first. -/
structure World where
  app : AppState
  detail : Option DetailInst
  nextInst : Nat
  sessionPending : Bool
  listFetches : List Nat
  nextFetch : Nat
  signOuts : Nat
  loads : List Load
  deriving DecidableEq, Repr

/-- The effect of lines 32-34, `useEffect(() => { fetchLists() }, [user])`, at a commit
whose previous value of `user` is `prev`: a new call of `fetchLists` when `user` changed.
React compares the dependency with `Object.is`; here two users are the same when their
fields are. -/
def userEffect (prev : Option User) (w : World) : World :=
  if w.app.user = prev then w
  else { w with listFetches := w.listFetches ++ [w.nextFetch], nextFetch := w.nextFetch + 1 }

/-- Reconcile the render of the application state `a` with the world `w`, whose `app` is
the previously rendered state.

* `ListDetail` not rendered: an instance that was mounted is unmounted.
* `ListDetail` rendered now and before: the instance and its state are kept; the effect
  of lines 277-279, `useEffect(() => { loadData() }, [list.id])`, runs when `list.id` changed.
* `ListDetail` rendered now but not before: a fresh instance is mounted with the initial
  state and the effect runs.

No event of `step` reaches the second case with a changed `list.id`: the only handler
that sets `selectedList` belongs to `HomePage`, which is never rendered together with
`ListDetail`. -/
def reconcile (w : World) (a : AppState) : World :=
  match shownList a with
  | none => { w with app := a, detail := none }
  | some l =>
    match shownList w.app, w.detail with
    | some l0, some d =>
      if l.id = l0.id then { w with app := a }
      else
        { w with
          app := a
          detail := some { d with st := loadDataStart d.st }
          loads := w.loads ++ [{ inst := d.inst, listId := l.id, stage := Stage.targets }] }
    | _, _ =>
      { w with
        app := a
        detail := some { inst := w.nextInst, st := loadDataStart DetailState.initial }
        nextInst := w.nextInst + 1
        loads := w.loads ++ [{ inst := w.nextInst, listId := l.id, stage := Stage.targets }] }

/-- Commit the render of the application state `a` on top of the world `w`: reconcile
`ListDetail`, then run the effect on `[user]` of `App`. -/
def commit (w : World) (a : AppState) : World :=
  userEffect w.app.user (reconcile w a)

/-- Run a setter batch of a `loadData` continuation on the instance it closed over: the
state of the mounted instance changes only if it is that instance; a state update of an
unmounted instance is dropped by React. -/
def onInstance (inst : Nat) (f : DetailState → DetailState) (detail : Option DetailInst) :
    Option DetailInst :=
  match detail with
  | some d => if d.inst = inst then some { d with st := f d.st } else some d
  | none => none

/-- How a call of `supabase.auth.signOut()` settles: it resolves without error, resolves
with an `error` field, or rejects. -/
inductive SignOutResult
  | ok
  | error
  | rejected
  deriving DecidableEq, Repr

/-- What can happen next: a click on an element of the rendered tree, or the settling of
a call in flight. -/
inductive Event
  | sessionResolved (session : Option Session)
  | authStateChange (session : Option Session)
  | listsResolved (k : Nat) (data : Option (List ListRow))
  | loginClick
  | logoutClick
  | signOutSettled (r : SignOutResult)
  | openMenu
  | closeMenu
  | menuClick (item : Page)
  | listClick (list : ListRow)
  | back
  | tabClick (tab : Tab)
  | reportClick (report : Report)
  | targetsResolved (i : Nat) (data : Option (List LinkRow))
  | reportsResolved (i : Nat) (data : Option (List Report))
  deriving DecidableEq, Repr

/-- Dispatch one event. An event that the rendered tree does not offer, or that names no
call in flight, leaves the world as it is. -/
def step (w : World) : Event → World
  | Event.sessionResolved session =>
    if w.sessionPending then
      commit { w with sessionPending := false } (getSessionThen session w.app)
    else w
  | Event.authStateChange session => commit w (onAuthStateChange session w.app)
  | Event.listsResolved k data =>
    if k ∈ w.listFetches then
      commit { w with listFetches := w.listFetches.erase k } (fetchListsThen data w.app)
    else w
  | Event.loginClick => w
  | Event.logoutClick =>
    if w.app.loading = false ∧ w.app.user ≠ none then { w with signOuts := w.signOuts + 1 }
    else w
  | Event.signOutSettled r =>
    if 0 < w.signOuts then
      match r with
      | SignOutResult.rejected => { w with signOuts := w.signOuts - 1 }
      | _ => commit { w with signOuts := w.signOuts - 1 } (handleLogoutThen w.app)
    else w
  | Event.openMenu =>
    if w.app.loading = false then commit w (setIsMobileMenuOpen true w.app) else w
  | Event.closeMenu =>
    if w.app.loading = false then commit w (setIsMobileMenuOpen false w.app) else w
  | Event.menuClick item =>
    if w.app.loading = false ∧ item ∈ menuItems then commit w (sidebarItemClick item w.app)
    else w
  | Event.listClick list =>
    if w.app.loading = false ∧ w.app.currentPage = Page.home ∧ list ∈ w.app.lists then
      commit w (handleListClick list w.app)
    else w
  | Event.back =>
    if (shownList w.app).isSome ∧ w.detail.isSome then commit w (onBack w.app) else w
  | Event.tabClick tab =>
    match w.detail with
    | some d =>
      if (shownList w.app).isSome then
        commit { w with detail := some { d with st := setActiveTab tab d.st } } w.app
      else w
    | none => w
  | Event.reportClick report =>
    match w.detail with
    | some d =>
      if (shownList w.app).isSome ∧ d.st.loading = false ∧ d.st.activeTab = Tab.reports
          ∧ report ∈ d.st.reports then
        commit { w with detail := some { d with st := setSelectedReport report d.st } } w.app
      else w
    | none => w
  | Event.targetsResolved i data =>
    match w.loads[i]? with
    | some ld =>
      if ld.stage = Stage.targets then
        commit
          { w with
            detail := onInstance ld.inst (loadDataTargets data) w.detail
            loads := w.loads.set i { ld with stage := Stage.reports } }
          w.app
      else w
    | none => w
  | Event.reportsResolved i data =>
    match w.loads[i]? with
    | some ld =>
      if ld.stage = Stage.reports then
        commit
          { w with
            detail := onInstance ld.inst (loadDataReports data) w.detail
            loads := w.loads.eraseIdx i }
          w.app
      else w
    | none => w

/-- Dispatch a sequence of events, first to last. -/
def run (w : World) (es : List Event) : World :=
  es.foldl step w

/-- The world after the first render of `App` and its two mount effects: `getSession()`
is unresolved (line 19) and the first `fetchLists()` awaits its query (line 33). -/
def World.initial : World :=
  { app := AppState.initial, detail := none, nextInst := 0, sessionPending := true,
    listFetches := [0], nextFetch := 1, signOuts := 0, loads := [] }

/-- The worlds that some sequence of events produces from the initial one. -/
def Reachable (w : World) : Prop :=
  ∃ es : List Event, run World.initial es = w

/-- The reports held by a state of `ListDetail`, and the report selected in it, are
rows of the list `l`. -/
def Owned (l : ListRow) (st : DetailState) : Prop :=
  (∀ r ∈ st.reports, r.list_id = l.id) ∧
  (∀ r, st.selectedReport = some r → r.list_id = l.id)

/-- The mounted `ListDetail` holds and selects only reports of the list it shows. -/
def ReportsOwned (w : World) : Prop :=
  ∀ d l, w.detail = some d → shownList w.app = some l → Owned l d.st

/-- Lines 295-299: the reports query of `loadData` is filtered by
`.eq('list_id', list.id)`, so every row of a response has the `list_id` the call closed
over. An event respects the filter when it is not a reports response, or is one whose
rows all carry the `list_id` of the call it resolves. -/
def respectsFilter (w : World) : Event → Bool
  | Event.reportsResolved i (some rows) =>
    match w.loads[i]? with
    | some ld => rows.all fun r => decide (r.list_id = ld.listId)
    | none => true
  | _ => true

/-- Every event of the sequence, dispatched in turn from `w`, respects the filter of the
reports query. -/
def allRespectFilter (w : World) : List Event → Bool
  | [] => true
  | e :: es => respectsFilter w e && allRespectFilter (step w e) es

/-- The worlds that some sequence of events produces from the initial one when the remote
store answers each reports query with rows of the list asked for. -/
def ReachableFiltered (w : World) : Prop :=
  ∃ es : List Event, allRespectFilter World.initial es = true ∧ run World.initial es = w

/-- The invariant of the reachable worlds behind last-request-wins of the detail view:
`ListDetail` is mounted exactly when the render shows it, instance numbers are fresh, and
every `loadData` in flight that belongs to the mounted instance was issued for the list
now shown. -/
structure Inv (w : World) : Prop where
  mounted : (shownList w.app).isSome = w.detail.isSome
  instFresh : ∀ d, w.detail = some d → d.inst < w.nextInst
  loadsFresh : ∀ ld ∈ w.loads, ld.inst < w.nextInst
  loadsCurrent : ∀ ld ∈ w.loads, ∀ d l, w.detail = some d → shownList w.app = some l →
    ld.inst = d.inst → ld.listId = l.id

/-! ## Concrete rows and worlds used by the examples -/

/-- A signed-in user. -/
def exUser : User := { id := 1, email := "op@example.org" }

/-- A public list with id 1. -/
def exList1 : ListRow :=
  { id := 1, name := "alpha", description := none, visibility := Visibility.PUBLIC,
    target_count := some 3, last_report_at := none }

/-- A private list with id 2. -/
def exList2 : ListRow :=
  { id := 2, name := "beta", description := none, visibility := Visibility.PRIVATE,
    target_count := none, last_report_at := none }

/-- A target row joined through `list_targets`. -/
def exLink : LinkRow :=
  { target_id := 5, monitor_targets :=
      { id := 5, screen_name := "handle", display_name := none, status := none } }

/-- A report of list 1. -/
def exReport1 : Report :=
  { id := 7, list_id := 1, report_date := 20240102, tweet_count := some 4, content := "r1" }

/-- A report of list 2. -/
def exReport2 : Report :=
  { id := 8, list_id := 2, report_date := 20240101, tweet_count := none, content := "r2" }

/-- Signed out, both lists loaded, list 1 opened and fully loaded, the reports tab chosen
and a report selected, then back to the home page. -/
def exBackHome : World :=
  run World.initial
    [Event.sessionResolved none, Event.listsResolved 0 (some [exList1, exList2]),
     Event.listClick exList1, Event.targetsResolved 0 (some [exLink]),
     Event.reportsResolved 0 (some [exReport1]), Event.tabClick Tab.reports,
     Event.reportClick exReport1, Event.back]

/-- Signed in, list 1 loaded by both calls of `fetchLists` issued so far, on the settings
page, with one `handleLogout` awaiting `signOut()`. -/
def exLoggingOut : World :=
  run World.initial
    [Event.sessionResolved (some { user := exUser }), Event.listsResolved 0 (some [exList1]),
     Event.listsResolved 1 (some [exList1]), Event.menuClick Page.settings, Event.logoutClick]

/-- List 1 opened and loaded with its one report, the reports tab chosen. -/
def exLoaded : World :=
  run World.initial
    [Event.sessionResolved none, Event.listsResolved 0 (some [exList1]),
     Event.listClick exList1, Event.targetsResolved 0 (some [exLink]),
     Event.reportsResolved 0 (some [exReport1]), Event.tabClick Tab.reports]

/-- Signed in, with two calls of `fetchLists` awaiting their query: number 0 issued on
mount and number 1 issued when `user` changed. -/
def exTwoFetches : World :=
  run World.initial [Event.sessionResolved (some { user := exUser })]

/-- Signed out, list 1 opened, its `loadData` awaiting the targets query. -/
def exLoading : World :=
  run World.initial
    [Event.sessionResolved none, Event.listsResolved 0 (some [exList1, exList2]),
     Event.listClick exList1]

/-- No session, session check finished, home page with both lists. -/
def exSignedOutHome : World :=
  run World.initial
    [Event.sessionResolved none, Event.listsResolved 0 (some [exList1, exList2])]

/-- Signed out; list 1 opened, left by the back button while its `loadData` (call 0) is
in flight, then list 2 opened (call 1). -/
def exSuperseded : World :=
  run World.initial
    [Event.sessionResolved none, Event.listsResolved 0 (some [exList1, exList2]),
     Event.listClick exList1, Event.back, Event.listClick exList2]

/-! ## Basic facts about `commit` -/

theorem userEffect_app (u : Option User) (w : World) : (userEffect u w).app = w.app := by
  unfold userEffect; split <;> rfl

theorem userEffect_detail (u : Option User) (w : World) :
    (userEffect u w).detail = w.detail := by
  unfold userEffect; split <;> rfl

theorem userEffect_loads (u : Option User) (w : World) : (userEffect u w).loads = w.loads := by
  unfold userEffect; split <;> rfl

theorem userEffect_same (w : World) : userEffect w.app.user w = w := by
  unfold userEffect; simp

theorem reconcile_app (w : World) (a : AppState) : (reconcile w a).app = a := by
  unfold reconcile
  split
  · rfl
  · split
    · split <;> rfl
    · rfl

theorem reconcile_listFetches (w : World) (a : AppState) :
    (reconcile w a).listFetches = w.listFetches := by
  unfold reconcile
  split
  · rfl
  · split
    · split <;> rfl
    · rfl

theorem commit_listFetches_mem (w : World) (a : AppState) (k : Nat)
    (hk : k ∈ w.listFetches) : k ∈ (commit w a).listFetches := by
  unfold commit userEffect
  split
  · rw [reconcile_listFetches]; exact hk
  · simp only [reconcile_listFetches]
    exact List.mem_append_left _ hk

theorem run_pair (w : World) (e1 e2 : Event) : run w [e1, e2] = step (step w e1) e2 := rfl

theorem commit_app (w : World) (a : AppState) : (commit w a).app = a := by
  unfold commit; rw [userEffect_app, reconcile_app]

/-- Reconciling the state that is already rendered, with `ListDetail` mounted exactly
when the render shows it, changes nothing. -/
theorem reconcile_self (w : World) (h : (shownList w.app).isSome = w.detail.isSome) :
    reconcile w w.app = w := by
  unfold reconcile
  cases hs : shownList w.app with
  | none =>
    rw [hs] at h
    cases hd : w.detail with
    | none => cases w; simp_all
    | some d => rw [hd] at h; simp at h
  | some l =>
    rw [hs] at h
    cases hd : w.detail with
    | none => rw [hd] at h; simp at h
    | some d => cases w; simp_all

theorem commit_self (w : World) (h : (shownList w.app).isSome = w.detail.isSome) :
    commit w w.app = w := by
  unfold commit
  rw [reconcile_self w h, userEffect_same]

/-- One tab click: nothing but `activeTab` of the mounted instance changes. -/
theorem step_tabClick (w : World) (t : Tab) :
    step w (Event.tabClick t) =
      { w with detail := w.detail.map fun d =>
          if (shownList w.app).isSome then { d with st := setActiveTab t d.st } else d } := by
  cases hd : w.detail with
  | none =>
    simp only [step, hd, Option.map_none']
    cases w; simp_all
  | some d =>
    by_cases hs : (shownList w.app).isSome
    · simp only [step, hd, hs, if_true, Option.map_some']
      exact commit_self _ (by simp [hs])
    · simp only [step, hd, hs, Option.map_some']
      cases w; simp_all

/-! ## Sign-out -/

/-- C2: in every application state, when a pending `handleLogout` continues after a
`signOut()` that resolved (with or without an error), the current page is `'home'`. -/
theorem handleLogout_forces_home (w : World) (r : SignOutResult) (hp : 0 < w.signOuts)
    (hr : r ≠ SignOutResult.rejected) :
    (step w (Event.signOutSettled r)).app.currentPage = Page.home := by
  cases r with
  | rejected => exact absurd rfl hr
  | ok => simp [step, hp, commit_app, handleLogoutThen]
  | error => simp [step, hp, commit_app, handleLogoutThen]

/-- C2, instance: signing out from the settings page. -/
theorem handleLogout_forces_home_witness :
    exLoggingOut.app.currentPage = Page.settings ∧
    (step exLoggingOut (Event.signOutSettled SignOutResult.ok)).app.currentPage = Page.home :=
  ⟨by decide, handleLogout_forces_home exLoggingOut SignOutResult.ok (by decide) (by decide)⟩

/-- C10, as stated, fails: a `signOut()` that resolves with an error still clears the
held user. -/
theorem failed_signOut_clears_user :
    exLoggingOut.app.user = some exUser ∧
    (step exLoggingOut (Event.signOutSettled SignOutResult.error)).app.user = none := by
  decide

/-- C10, amended: a `signOut()` that resolves with an error is handled exactly like one
that succeeds (user cleared, page home); one that rejects leaves the application state
untouched, because the rest of `handleLogout` does not run. -/
theorem handleLogout_ignores_signOut_error (w : World) (hp : 0 < w.signOuts) :
    step w (Event.signOutSettled SignOutResult.error)
        = step w (Event.signOutSettled SignOutResult.ok) ∧
    (step w (Event.signOutSettled SignOutResult.error)).app
        = { w.app with user := none, currentPage := Page.home } ∧
    (step w (Event.signOutSettled SignOutResult.rejected)).app = w.app := by
  refine ⟨?_, ?_, ?_⟩
  · simp [step, hp]
  · simp [step, hp, commit_app, handleLogoutThen]
  · simp [step, hp]

/-- C10, amended, instance. -/
theorem handleLogout_ignores_signOut_error_witness :
    (step exLoggingOut (Event.signOutSettled SignOutResult.error)).app
        = { exLoggingOut.app with user := none, currentPage := Page.home } ∧
    (step exLoggingOut (Event.signOutSettled SignOutResult.rejected)).app.user = some exUser :=
  ⟨(handleLogout_ignores_signOut_error exLoggingOut (by decide)).2.1, by decide⟩

/-! ## Opening a list and switching tabs -/

/-- C5: from every state in which a list row can be clicked (the home page is rendered
and `l` is one of its rows), right after the click the page is the detail of `l`, shown by
a freshly mounted `ListDetail`: tab `'targets'`, no report selected, nothing loaded yet,
and one `loadData` for `l.id` issued. -/
theorem openList_resets_tab_and_selection (w : World) (l : ListRow)
    (hl : w.app.loading = false) (hp : w.app.currentPage = Page.home)
    (hm : l ∈ w.app.lists) :
    (step w (Event.listClick l)).app.currentPage = Page.list_detail ∧
    (step w (Event.listClick l)).app.selectedList = some l ∧
    shownList (step w (Event.listClick l)).app = some l ∧
    (step w (Event.listClick l)).detail
        = some { inst := w.nextInst, st := DetailState.initial } ∧
    DetailState.initial.activeTab = Tab.targets ∧
    DetailState.initial.selectedReport = none ∧
    (step w (Event.listClick l)).loads
        = w.loads ++ [{ inst := w.nextInst, listId := l.id, stage := Stage.targets }] := by
  have hs : shownList w.app = none := by simp [shownList, hl, hp]
  have ha : shownList (handleListClick l w.app) = some l := by
    simp [shownList, handleListClick, hl]
  have hstep : step w (Event.listClick l) = commit w (handleListClick l w.app) := by
    simp [step, hl, hp, hm]
  have hrec : reconcile w (handleListClick l w.app) =
      { w with
        app := handleListClick l w.app
        detail := some { inst := w.nextInst, st := loadDataStart DetailState.initial }
        nextInst := w.nextInst + 1
        loads := w.loads ++ [{ inst := w.nextInst, listId := l.id, stage := Stage.targets }] } := by
    unfold reconcile
    rw [ha, hs]
  rw [hstep]
  refine ⟨?_, ?_, ?_, ?_, rfl, rfl, ?_⟩
  · rw [commit_app]; rfl
  · rw [commit_app]; rfl
  · rw [commit_app]; exact ha
  · unfold commit; rw [userEffect_detail, hrec]; rfl
  · unfold commit; rw [userEffect_loads, hrec]

/-- C5, instance: list 1 was left on the reports tab with a report selected; opening
list 2 from the home page starts on the targets tab with no report selected. -/
theorem openList_resets_tab_and_selection_witness :
    (step exBackHome (Event.listClick exList2)).detail
        = some { inst := exBackHome.nextInst, st := DetailState.initial } :=
  (openList_resets_tab_and_selection exBackHome exList2 (by decide) (by decide)
    (by decide)).2.2.2.1

/-- C6: a sequence of tab clicks changes nothing but `activeTab` of the mounted
instance (which ends as the last tab clicked): no `loadData` and no `fetchLists` is
issued, and targets, reports, selected report and loading flag stay as they were. -/
theorem tab_switches_never_fetch (w : World) (tabs : List Tab) :
    run w (tabs.map Event.tabClick) =
      { w with detail := w.detail.map fun d =>
          if (shownList w.app).isSome then
            { d with st := { d.st with activeTab := tabs.getLast?.getD d.st.activeTab } }
          else d } ∧
    (run w (tabs.map Event.tabClick)).loads = w.loads ∧
    (run w (tabs.map Event.tabClick)).listFetches = w.listFetches ∧
    (run w (tabs.map Event.tabClick)).detail.map
        (fun d => (d.st.targets, d.st.reports, d.st.loading))
      = w.detail.map (fun d => (d.st.targets, d.st.reports, d.st.loading)) := by
  have key : ∀ (ts : List Tab) (v : World), run v (ts.map Event.tabClick) =
      { v with detail := v.detail.map fun d =>
          if (shownList v.app).isSome then
            { d with st := { d.st with activeTab := ts.getLast?.getD d.st.activeTab } }
          else d } := by
    intro ts
    induction ts with
    | nil =>
      intro v
      cases v with
      | mk app detail nextInst sessionPending listFetches nextFetch signOuts loads =>
        cases detail <;> simp [run]
    | cons t ts ih =>
      intro v
      have hrun : run v ((t :: ts).map Event.tabClick)
          = run (step v (Event.tabClick t)) (ts.map Event.tabClick) := by
        simp [run]
      rw [hrun, ih, step_tabClick]
      cases v with
      | mk app detail nextInst sessionPending listFetches nextFetch signOuts loads =>
        cases detail with
        | none => simp
        | some d =>
          cases ts with
          | nil => by_cases hs : (shownList app).isSome <;> simp [hs, setActiveTab]
          | cons t2 ts2 =>
            have hx : (t2 :: ts2).getLast? = some ((t2 :: ts2).getLast (by simp)) :=
              List.getLast?_eq_getLast _ _
            by_cases hs : (shownList app).isSome <;>
              simp [hs, setActiveTab, List.getLast?_cons_cons, hx]
  have h := key tabs w
  refine ⟨h, ?_, ?_, ?_⟩
  · rw [h]
  · rw [h]
  · rw [h]
    cases hd : w.detail with
    | none => simp
    | some d => by_cases hs : (shownList w.app).isSome <;> simp [hs]

/-! ## The list summaries -/

/-- What a resolving `fetchLists` does to `lists`: the returned rows replace them, a
failed query leaves them. -/
theorem step_listsResolved_lists (w : World) (k : Nat) (data : Option (List ListRow))
    (hk : k ∈ w.listFetches) :
    (step w (Event.listsResolved k data)).app.lists = data.getD w.app.lists := by
  simp only [step, hk, if_true, commit_app]
  cases data <;> rfl

/-- C3, as stated, fails: list 1 was loaded under the session. After sign-out the reload
that the user change triggers (call 2) is the only call pending; when it fails the app
still holds list 1 with no session and nothing pending, and when it returns rows the
app holds those rows. -/
theorem signOut_does_not_clear_lists :
    exLoggingOut.app.lists = [exList1] ∧
    (step exLoggingOut (Event.signOutSettled SignOutResult.ok)).listFetches = [2] ∧
    (run exLoggingOut
      [Event.signOutSettled SignOutResult.ok, Event.listsResolved 2 none]).app.user = none ∧
    (run exLoggingOut
      [Event.signOutSettled SignOutResult.ok, Event.listsResolved 2 none]).listFetches = [] ∧
    (run exLoggingOut
      [Event.signOutSettled SignOutResult.ok, Event.listsResolved 2 none]).app.lists
        = [exList1] ∧
    (run exLoggingOut
      [Event.signOutSettled SignOutResult.ok,
       Event.listsResolved 2 (some [exList1])]).app.lists = [exList1] := by
  decide

/-- C3, amended: when the session becomes absent (by `handleLogout` or by an auth-state
change without session) `user` becomes null and `lists` stays as it was; a reload that
resolves afterwards replaces `lists` by the rows it returned and leaves it when it failed. -/
theorem signOut_keeps_lists_until_reload (w : World) (r : SignOutResult)
    (hp : 0 < w.signOuts) (hr : r ≠ SignOutResult.rejected) :
    (step w (Event.signOutSettled r)).app.user = none ∧
    (step w (Event.signOutSettled r)).app.lists = w.app.lists ∧
    (step w (Event.authStateChange none)).app.user = none ∧
    (step w (Event.authStateChange none)).app.lists = w.app.lists ∧
    (∀ k data, k ∈ (step w (Event.signOutSettled r)).listFetches →
      (step (step w (Event.signOutSettled r)) (Event.listsResolved k data)).app.lists
        = data.getD w.app.lists) ∧
    (∀ k data, k ∈ (step w (Event.authStateChange none)).listFetches →
      (step (step w (Event.authStateChange none)) (Event.listsResolved k data)).app.lists
        = data.getD w.app.lists) := by
  have h1 : (step w (Event.signOutSettled r)).app = handleLogoutThen w.app := by
    cases r with
    | rejected => exact absurd rfl hr
    | ok => simp [step, hp, commit_app]
    | error => simp [step, hp, commit_app]
  have h2 : (step w (Event.authStateChange none)).app = onAuthStateChange none w.app := by
    simp [step, commit_app]
  refine ⟨?_, ?_, ?_, ?_, ?_, ?_⟩
  · rw [h1]; rfl
  · rw [h1]; rfl
  · rw [h2]; rfl
  · rw [h2]; rfl
  · intro k data hk
    rw [step_listsResolved_lists _ _ _ hk, h1]; rfl
  · intro k data hk
    rw [step_listsResolved_lists _ _ _ hk, h2]; rfl

/-- C3, amended, instance: signing out with list 1 held; the reload fails and list 1 stays. -/
theorem signOut_keeps_lists_until_reload_witness :
    (step exLoggingOut (Event.signOutSettled SignOutResult.ok)).app.lists
        = exLoggingOut.app.lists ∧
    (step (step exLoggingOut (Event.signOutSettled SignOutResult.ok))
        (Event.listsResolved 2 none)).app.lists = [exList1] :=
  ⟨(signOut_keeps_lists_until_reload exLoggingOut SignOutResult.ok (by decide)
      (by decide)).2.1,
   (signOut_keeps_lists_until_reload exLoggingOut SignOutResult.ok (by decide)
      (by decide)).2.2.2.2.1 2 none (by decide)⟩

/-- C8, as stated, fails: fetch 0 was issued before fetch 1; when fetch 1 resolves first,
the result of fetch 0 is applied after it and is what the app finally holds. -/
theorem fetchLists_earlier_result_applied_last :
    exTwoFetches.listFetches = [0, 1] ∧
    (run exTwoFetches
      [Event.listsResolved 1 (some [exList2]), Event.listsResolved 0 (some [exList1])]).app.lists
        = [exList1] ∧
    (run exTwoFetches
      [Event.listsResolved 1 (some [exList2]), Event.listsResolved 0 (some [exList1])]).listFetches
        = [] ∧
    [exList1] ≠ [exList2] := by
  decide

/-- C8, amended: of two pending calls of `fetchLists`, whichever was issued first, the
one that resolves last with data determines `lists`; if the one that resolves last
failed, the data of the other stays. -/
theorem fetchLists_last_resolved_wins (w : World) (k1 k2 : Nat) (d1 d2 : List ListRow)
    (h1 : k1 ∈ w.listFetches) (h2 : k2 ∈ w.listFetches) (hne : k1 ≠ k2) :
    (run w [Event.listsResolved k1 (some d1), Event.listsResolved k2 (some d2)]).app.lists
        = d2 ∧
    (run w [Event.listsResolved k1 (some d1), Event.listsResolved k2 none]).app.lists
        = d1 := by
  have hmem : k2 ∈ (step w (Event.listsResolved k1 (some d1))).listFetches := by
    simp only [step, h1, if_true]
    apply commit_listFetches_mem
    exact (List.mem_erase_of_ne (Ne.symm hne)).2 h2
  have hfirst := step_listsResolved_lists w k1 (some d1) h1
  constructor
  · rw [run_pair, step_listsResolved_lists _ _ _ hmem]; rfl
  · rw [run_pair, step_listsResolved_lists _ _ _ hmem, hfirst]; rfl

/-- C8, amended, instance: the later-issued fetch 1 resolves first, fetch 0 last. -/
theorem fetchLists_last_resolved_wins_witness :
    (run exTwoFetches
      [Event.listsResolved 1 (some [exList2]), Event.listsResolved 0 (some [exList1])]).app.lists
        = [exList1] :=
  (fetchLists_last_resolved_wins exTwoFetches 1 0 [exList2] [exList1] (by decide) (by decide)
    (by decide)).1

/-! ## Navigation without a session -/

/-- C9, as stated, fails: with no session, a click on the sidebar's settings item
reaches the settings page. -/
theorem no_session_reaches_settings :
    ¬ ∀ w : World, Reachable w → w.app.user = none → w.app.currentPage = Page.home := by
  intro h
  have hr : Reachable (run World.initial
      [Event.sessionResolved none, Event.menuClick Page.settings]) := ⟨_, rfl⟩
  exact absurd (h _ hr (by decide)) (by decide)

/-- C9, amended: navigation does not consult the session. The page is `'home'` with no
session in the initial state; but once the session check has finished, with `user` null
the settings item sets the page to `'settings'` and a click on a row of the home page
sets it to `'list_detail'`, `user` staying null. -/
theorem navigation_ignores_session (w : World) (l : ListRow) (hl : w.app.loading = false)
    (hu : w.app.user = none) (hp : w.app.currentPage = Page.home) (hm : l ∈ w.app.lists) :
    (World.initial.app.user = none ∧ World.initial.app.currentPage = Page.home) ∧
    ((step w (Event.menuClick Page.settings)).app.user = none ∧
      (step w (Event.menuClick Page.settings)).app.currentPage = Page.settings) ∧
    ((step w (Event.listClick l)).app.user = none ∧
      (step w (Event.listClick l)).app.currentPage = Page.list_detail) := by
  refine ⟨⟨rfl, rfl⟩, ⟨?_, ?_⟩, ⟨?_, ?_⟩⟩
  · simp [step, hl, menuItems, commit_app, sidebarItemClick, hu]
  · simp [step, hl, menuItems, commit_app, sidebarItemClick]
  · simp [step, hl, hp, hm, commit_app, handleListClick, hu]
  · simp [step, hl, hp, hm, commit_app, handleListClick]

/-- C9, amended, instance: signed out on the home page with two lists. -/
theorem navigation_ignores_session_witness :
    exSignedOutHome.app.user = none ∧
    (step exSignedOutHome (Event.menuClick Page.settings)).app.currentPage = Page.settings ∧
    (step exSignedOutHome (Event.listClick exList2)).app.currentPage = Page.list_detail :=
  ⟨by decide,
   (navigation_ignores_session exSignedOutHome exList2 (by decide) (by decide) (by decide)
      (by decide)).2.1.2,
   (navigation_ignores_session exSignedOutHome exList2 (by decide) (by decide) (by decide)
      (by decide)).2.2.2⟩

/-! ## Loading the detail of a list -/

theorem onInstance_isSome (n : Nat) (f : DetailState → DetailState)
    (det : Option DetailInst) : (onInstance n f det).isSome = det.isSome := by
  unfold onInstance
  cases det with
  | none => rfl
  | some d => dsimp only; split <;> rfl

/-- The first `await` of a `loadData` resolving, in a world whose mounted instance agrees
with the render. -/
theorem step_targetsResolved (w : World) (i : Nat) (ld : Load)
    (data : Option (List LinkRow)) (hi : w.loads[i]? = some ld)
    (hst : ld.stage = Stage.targets) (hc : (shownList w.app).isSome = w.detail.isSome) :
    step w (Event.targetsResolved i data) =
      { w with
        detail := onInstance ld.inst (loadDataTargets data) w.detail
        loads := w.loads.set i { ld with stage := Stage.reports } } := by
  simp only [step, hi, hst, if_true]
  exact commit_self _ (by simp [onInstance_isSome, hc])

/-- The second `await` of a `loadData` resolving, in a world whose mounted instance
agrees with the render. -/
theorem step_reportsResolved (w : World) (i : Nat) (ld : Load)
    (data : Option (List Report)) (hi : w.loads[i]? = some ld)
    (hst : ld.stage = Stage.reports) (hc : (shownList w.app).isSome = w.detail.isSome) :
    step w (Event.reportsResolved i data) =
      { w with
        detail := onInstance ld.inst (loadDataReports data) w.detail
        loads := w.loads.eraseIdx i } := by
  simp only [step, hi, hst, if_true]
  exact commit_self _ (by simp [onInstance_isSome, hc])

/-- C7, as stated, fails: the targets query of list 1 fails and its reports query
succeeds; the view ends finished (not loading) with the reports and no targets. The
same happens the other way round. -/
theorem loadData_half_failure_ends_loaded :
    (run exLoading
      [Event.targetsResolved 0 none, Event.reportsResolved 0 (some [exReport1])]).detail
      = some { inst := 0,
               st := { activeTab := Tab.targets, targets := [], reports := [exReport1],
                       selectedReport := some exReport1, loading := false } } ∧
    (run exLoading
      [Event.targetsResolved 0 (some [exLink]), Event.reportsResolved 0 none]).detail
      = some { inst := 0,
               st := { activeTab := Tab.targets, targets := [exLink.monitor_targets],
                       reports := [], selectedReport := none, loading := false } } := by
  decide

/-- C7, amended: when exactly one of the two queries of a `loadData` of the mounted
instance fails, the load still finishes: the loading flag becomes false, the half that
succeeded is written and the half that failed keeps the value it had. -/
theorem loadData_half_failure_finishes (w : World) (d : DetailInst) (i : Nat) (ld : Load)
    (links : List LinkRow) (rows : List Report)
    (hd : w.detail = some d) (hs : (shownList w.app).isSome) (hi : w.loads[i]? = some ld)
    (hinst : ld.inst = d.inst) (hst : ld.stage = Stage.targets) :
    (run w [Event.targetsResolved i none, Event.reportsResolved i (some rows)]).detail.map
        (fun x => (x.st.targets, x.st.reports, x.st.loading))
      = some (d.st.targets, rows, false) ∧
    (run w [Event.targetsResolved i (some links), Event.reportsResolved i none]).detail.map
        (fun x => (x.st.targets, x.st.reports, x.st.loading))
      = some (links.map LinkRow.monitor_targets, d.st.reports, false) := by
  have hc : (shownList w.app).isSome = w.detail.isSome := by simp [hd, hs]
  have hlt : i < w.loads.length := by
    rcases Nat.lt_or_ge i w.loads.length with h | h
    · exact h
    · rw [List.getElem?_eq_none h] at hi; cases hi
  have hstep : ∀ (t : Option (List LinkRow)) (r : Option (List Report)),
      (run w [Event.targetsResolved i t, Event.reportsResolved i r]).detail
        = some { d with st := loadDataReports r (loadDataTargets t d.st) } := by
    intro t r
    rw [run_pair, step_targetsResolved w i ld t hi hst hc]
    have hi2 : ({ w with
        detail := onInstance ld.inst (loadDataTargets t) w.detail
        loads := w.loads.set i { ld with stage := Stage.reports } } : World).loads[i]?
          = some { ld with stage := Stage.reports } := by
      simp [List.getElem?_set_self hlt]
    rw [step_reportsResolved _ i _ r hi2 rfl (by simp [onInstance_isSome, hc])]
    simp [onInstance, hd, hinst]
  constructor
  · rw [hstep]
    cases rows <;> simp [loadDataReports, loadDataTargets]
  · rw [hstep]
    simp [loadDataReports, loadDataTargets]

/-- C7, amended, instance: the targets query of list 1 fails, its reports query succeeds. -/
theorem loadData_half_failure_finishes_witness :
    (run exLoading
        [Event.targetsResolved 0 none, Event.reportsResolved 0 (some [exReport1])]).detail.map
        (fun x => (x.st.targets, x.st.reports, x.st.loading))
      = some ([], [exReport1], false) :=
  (loadData_half_failure_finishes exLoading { inst := 0, st := DetailState.initial } 0
    { inst := 0, listId := 1, stage := Stage.targets } [exLink] [exReport1]
    (by decide) (by decide) (by decide) (by decide) (by decide)).1

/-! ## Last request wins in the detail view -/

theorem shownList_eq_some (a : AppState) (l : ListRow) :
    shownList a = some l ↔
      a.loading = false ∧ a.currentPage = Page.list_detail ∧ a.selectedList = some l := by
  unfold shownList
  cases hl : a.loading
  · by_cases hp : a.currentPage = Page.list_detail <;> simp [hp]
  · simp

/-- Two states with the same selected list cannot show different lists. -/
theorem shownList_stable (a b : AppState)
    (hsel : b.selectedList = a.selectedList) (l l0 : ListRow)
    (hb : shownList b = some l) (ha : shownList a = some l0) : l = l0 := by
  rw [shownList_eq_some] at hb ha
  have h := hb.2.2
  rw [hsel, ha.2.2] at h
  exact (Option.some.inj h).symm

theorem Inv.userEffect {w : World} (u : Option User) (h : Inv w) : Inv (userEffect u w) := by
  unfold TwitterRadar.userEffect
  split
  · exact h
  · exact ⟨h.mounted, h.instFresh, h.loadsFresh, h.loadsCurrent⟩

theorem Inv.reconcile {w : World} (a : AppState) (h : Inv w)
    (hch : ∀ l l0, shownList a = some l → shownList w.app = some l0 → l = l0) :
    Inv (reconcile w a) := by
  unfold TwitterRadar.reconcile
  split
  · rename_i hnone
    refine ⟨?_, ?_, h.loadsFresh, ?_⟩
    · show (shownList a).isSome = (none : Option DetailInst).isSome
      rw [hnone]; rfl
    · intro d hd; cases hd
    · intro ld _ d l hd; cases hd
  · rename_i l hsome
    split
    · rename_i l0 d hs0 hd0
      have hll : l = l0 := hch l l0 hsome hs0
      subst hll
      simp only [if_true]
      refine ⟨?_, h.instFresh, h.loadsFresh, ?_⟩
      · show (shownList a).isSome = w.detail.isSome
        rw [hsome, hd0]; rfl
      · intro ld hld d1 l1 hd1 hs1 hi
        have hs1 : shownList a = some l1 := hs1
        rw [hsome] at hs1
        cases hs1
        exact h.loadsCurrent ld hld d1 l hd1 hs0 hi
    · refine ⟨?_, ?_, ?_, ?_⟩
      · show (shownList a).isSome = (some _ : Option DetailInst).isSome
        rw [hsome]; rfl
      · intro d hd
        have hd : some { inst := w.nextInst, st := loadDataStart DetailState.initial } = some d := hd
        cases hd
        exact Nat.lt_succ_self _
      · intro ld hld
        have hld : ld ∈ w.loads ++ [{ inst := w.nextInst, listId := l.id, stage := Stage.targets }] :=
          hld
        rcases List.mem_append.1 hld with hm | hm
        · exact Nat.lt_succ_of_lt (h.loadsFresh ld hm)
        · rw [List.mem_singleton] at hm
          subst hm
          exact Nat.lt_succ_self _
      · intro ld hld d1 l1 hd1 hs1 hi
        have hld : ld ∈ w.loads ++ [{ inst := w.nextInst, listId := l.id, stage := Stage.targets }] :=
          hld
        have hd1 : some { inst := w.nextInst, st := loadDataStart DetailState.initial } = some d1 :=
          hd1
        have hs1 : shownList a = some l1 := hs1
        rw [hsome] at hs1
        cases hs1
        cases hd1
        rcases List.mem_append.1 hld with hm | hm
        · have := h.loadsFresh ld hm
          have hi : ld.inst = w.nextInst := hi
          omega
        · rw [List.mem_singleton] at hm
          subst hm
          rfl

theorem Inv.commit {w : World} (a : AppState) (h : Inv w)
    (hch : ∀ l l0, shownList a = some l → shownList w.app = some l0 → l = l0) :
    Inv (TwitterRadar.commit w a) :=
  Inv.userEffect _ (Inv.reconcile a h hch)

/-- A commit that leaves `ListDetail` unrendered keeps the invariant. -/
theorem Inv.commit_hidden {w : World} (a : AppState) (h : Inv w) (ha : shownList a = none) :
    Inv (TwitterRadar.commit w a) :=
  Inv.commit a h (fun l l0 hl _ => by rw [ha] at hl; cases hl)

/-- A commit on top of a state that did not render `ListDetail` keeps the invariant. -/
theorem Inv.commit_from_hidden {w : World} (a : AppState) (h : Inv w)
    (hw : shownList w.app = none) : Inv (TwitterRadar.commit w a) :=
  Inv.commit a h (fun l l0 _ hl0 => by rw [hw] at hl0; cases hl0)

theorem onInstance_inst (n : Nat) (f : DetailState → DetailState) (det : Option DetailInst)
    (d : DetailInst) (h : onInstance n f det = some d) :
    ∃ d0, det = some d0 ∧ d.inst = d0.inst := by
  unfold onInstance at h
  cases det with
  | none => cases h
  | some d0 =>
    refine ⟨d0, rfl, ?_⟩
    dsimp only at h
    split at h <;> cases h <;> rfl

/-- Replacing the state of the mounted instance (not its identity) and dropping or
advancing calls in flight keeps the invariant. -/
theorem Inv.update {w : World} (h : Inv w) (det : Option DetailInst) (loads : List Load)
    (hdet : det.isSome = w.detail.isSome)
    (hinst : ∀ d, det = some d → ∃ d0, w.detail = some d0 ∧ d.inst = d0.inst)
    (hloads : ∀ ld ∈ loads, ∃ ld0 ∈ w.loads, ld.inst = ld0.inst ∧ ld.listId = ld0.listId) :
    Inv { w with detail := det, loads := loads } := by
  refine ⟨?_, ?_, ?_, ?_⟩
  · show (shownList w.app).isSome = det.isSome
    rw [hdet]; exact h.mounted
  · intro d hd
    obtain ⟨d0, hd0, hi⟩ := hinst d hd
    have := h.instFresh d0 hd0
    show d.inst < w.nextInst
    omega
  · intro ld hld
    obtain ⟨ld0, hm, hi, _⟩ := hloads ld hld
    have := h.loadsFresh ld0 hm
    show ld.inst < w.nextInst
    omega
  · intro ld hld d l hd hs hi
    obtain ⟨ld0, hm, hi0, hl0⟩ := hloads ld hld
    obtain ⟨d0, hd0, hdi⟩ := hinst d hd
    rw [hl0]
    exact h.loadsCurrent ld0 hm d0 l hd0 hs (by omega)

/-- Every event keeps the invariant. -/
theorem Inv.step {w : World} (e : Event) (h : Inv w) : Inv (TwitterRadar.step w e) := by
  have hsame : ∀ loads, loads = w.loads →
      ∀ ld ∈ loads, ∃ ld0 ∈ w.loads, ld.inst = ld0.inst ∧ ld.listId = ld0.listId := by
    intro loads hl ld hld
    subst hl
    exact ⟨ld, hld, rfl, rfl⟩
  cases e with
  | sessionResolved session =>
    simp only [TwitterRadar.step]
    split
    · exact Inv.commit (w := { w with sessionPending := false }) _
        ⟨h.mounted, h.instFresh, h.loadsFresh, h.loadsCurrent⟩
        (fun l l0 hl hl0 => shownList_stable w.app _ (by rfl) l l0 hl hl0)
    · exact h
  | authStateChange session =>
    simp only [TwitterRadar.step]
    exact Inv.commit _ h (fun l l0 hl hl0 => shownList_stable w.app _ (by rfl) l l0 hl hl0)
  | listsResolved k data =>
    simp only [TwitterRadar.step]
    split
    · refine Inv.commit (w := { w with listFetches := w.listFetches.erase k }) _
        ⟨h.mounted, h.instFresh, h.loadsFresh, h.loadsCurrent⟩ ?_
      intro l l0 hl hl0
      refine shownList_stable w.app _ ?_ l l0 hl hl0
      cases data <;> rfl
    · exact h
  | loginClick => exact h
  | logoutClick =>
    simp only [TwitterRadar.step]
    split
    · exact ⟨h.mounted, h.instFresh, h.loadsFresh, h.loadsCurrent⟩
    · exact h
  | signOutSettled r =>
    have hw : Inv { w with signOuts := w.signOuts - 1 } :=
      ⟨h.mounted, h.instFresh, h.loadsFresh, h.loadsCurrent⟩
    have hh : shownList (handleLogoutThen w.app) = none := by
      simp [shownList, handleLogoutThen]
    cases r with
    | rejected =>
      simp only [TwitterRadar.step]
      split
      · exact hw
      · exact h
    | ok =>
      simp only [TwitterRadar.step]
      split
      · exact Inv.commit_hidden _ hw hh
      · exact h
    | error =>
      simp only [TwitterRadar.step]
      split
      · exact Inv.commit_hidden _ hw hh
      · exact h
  | openMenu =>
    simp only [TwitterRadar.step]
    split
    · exact Inv.commit _ h (fun l l0 hl hl0 => shownList_stable w.app _ (by rfl) l l0 hl hl0)
    · exact h
  | closeMenu =>
    simp only [TwitterRadar.step]
    split
    · exact Inv.commit _ h (fun l l0 hl hl0 => shownList_stable w.app _ (by rfl) l l0 hl hl0)
    · exact h
  | menuClick item =>
    simp only [TwitterRadar.step]
    split
    · rename_i hg
      refine Inv.commit_hidden _ h ?_
      have hi : item = Page.home ∨ item = Page.settings := by
        simpa [menuItems] using hg.2
      rcases hi with hi | hi <;> simp [shownList, sidebarItemClick, hi]
    · exact h
  | listClick list =>
    simp only [TwitterRadar.step]
    split
    · rename_i hg
      refine Inv.commit_from_hidden _ h ?_
      simp [shownList, hg.2.1]
    · exact h
  | back =>
    simp only [TwitterRadar.step]
    split
    · exact Inv.commit_hidden _ h (by simp [shownList, onBack])
    · exact h
  | tabClick tab =>
    simp only [TwitterRadar.step]
    split
    · rename_i d hd
      split
      · refine Inv.commit (w := { w with detail := some { d with st := setActiveTab tab d.st } })
          _ ?_ (fun l l0 hl hl0 => shownList_stable w.app _ (by rfl) l l0 hl hl0)
        have hu := Inv.update h (some { d with st := setActiveTab tab d.st }) w.loads
          (by rw [hd]; rfl)
          (fun d1 hd1 => ⟨d, hd, by cases hd1; rfl⟩) (hsame _ rfl)
        exact hu
      · exact h
    · exact h
  | reportClick report =>
    simp only [TwitterRadar.step]
    split
    · rename_i d hd
      split
      · refine Inv.commit
          (w := { w with detail := some { d with st := setSelectedReport report d.st } })
          _ ?_ (fun l l0 hl hl0 => shownList_stable w.app _ (by rfl) l l0 hl hl0)
        have hu := Inv.update h (some { d with st := setSelectedReport report d.st }) w.loads
          (by rw [hd]; rfl)
          (fun d1 hd1 => ⟨d, hd, by cases hd1; rfl⟩) (hsame _ rfl)
        exact hu
      · exact h
    · exact h
  | targetsResolved i data =>
    simp only [TwitterRadar.step]
    split
    · rename_i ld hld
      split
      · refine Inv.commit _ ?_ (fun l l0 hl hl0 => shownList_stable w.app _ (by rfl) l l0 hl hl0)
        refine Inv.update h _ _ (onInstance_isSome _ _ _)
          (fun d1 hd1 => onInstance_inst _ _ _ d1 hd1) ?_
        intro x hx
        rcases List.mem_or_eq_of_mem_set hx with hm | hm
        · exact ⟨x, hm, rfl, rfl⟩
        · exact ⟨ld, List.getElem?_mem hld, by rw [hm], by rw [hm]⟩
      · exact h
    · exact h
  | reportsResolved i data =>
    simp only [TwitterRadar.step]
    split
    · rename_i ld hld
      split
      · refine Inv.commit _ ?_ (fun l l0 hl hl0 => shownList_stable w.app _ (by rfl) l l0 hl hl0)
        refine Inv.update h _ _ (onInstance_isSome _ _ _)
          (fun d1 hd1 => onInstance_inst _ _ _ d1 hd1) ?_
        intro x hx
        exact ⟨x, List.mem_of_mem_eraseIdx hx, rfl, rfl⟩
      · exact h
    · exact h

theorem Inv.initial : Inv World.initial := by
  refine ⟨rfl, ?_, ?_, ?_⟩
  · intro d hd; cases hd
  · intro ld hld; cases hld
  · intro ld hld; cases hld

theorem Inv.run {w : World} (es : List Event) (h : Inv w) : Inv (TwitterRadar.run w es) := by
  induction es generalizing w with
  | nil => exact h
  | cons e es ih => exact ih (Inv.step e h)

/-- Every reachable world satisfies the invariant. -/
theorem Reachable.inv {w : World} (h : Reachable w) : Inv w := by
  obtain ⟨es, rfl⟩ := h
  exact Inv.run es Inv.initial

theorem onInstance_ne (n : Nat) (f : DetailState → DetailState) (det : Option DetailInst)
    (h : onInstance n f det ≠ det) : ∃ d, det = some d ∧ d.inst = n := by
  cases det with
  | none => exact absurd rfl h
  | some d =>
    by_cases hn : d.inst = n
    · exact ⟨d, rfl, hn⟩
    · exact absurd (by simp [onInstance, hn]) h

/-- A `loadData` in flight whose instance is the mounted one was issued for the list that
is selected and shown. -/
theorem Inv.load_of_mounted {w : World} (h : Inv w) (i : Nat) (ld : Load) (d : DetailInst)
    (hi : w.loads[i]? = some ld) (hd : w.detail = some d) (hinst : d.inst = ld.inst) :
    ∃ l, w.app.currentPage = Page.list_detail ∧ w.app.selectedList = some l ∧
      ld.listId = l.id := by
  have hm := h.mounted
  rw [hd] at hm
  obtain ⟨l, hl⟩ := Option.isSome_iff_exists.1 hm
  have hcur := h.loadsCurrent ld (List.getElem?_mem hi) d l hd hl hinst.symm
  have hs := (shownList_eq_some w.app l).1 hl
  exact ⟨l, hs.2.1, hs.2.2, hcur⟩

/-- C1: in every reachable world, whenever the resolution of a query of a `loadData` in
flight (in whatever order the calls resolve) changes the state of the detail view, that
`loadData` was issued for the list opened last: the detail page is shown, and the
`list.id` the call closed over is the id of `selectedList`. -/
theorem detail_last_request_wins (w : World) (hw : Reachable w) (i : Nat) (ld : Load)
    (tdata : Option (List LinkRow)) (rdata : Option (List Report))
    (hi : w.loads[i]? = some ld)
    (hch : (step w (Event.targetsResolved i tdata)).detail ≠ w.detail ∨
      (step w (Event.reportsResolved i rdata)).detail ≠ w.detail) :
    ∃ l, w.app.currentPage = Page.list_detail ∧ w.app.selectedList = some l ∧
      ld.listId = l.id := by
  have h := hw.inv
  rcases hch with hch | hch
  · by_cases hst : ld.stage = Stage.targets
    · rw [step_targetsResolved w i ld tdata hi hst h.mounted] at hch
      obtain ⟨d, hd, hinst⟩ := onInstance_ne _ _ _ hch
      exact h.load_of_mounted i ld d hi hd hinst
    · exact absurd (by simp [step, hi, hst]) hch
  · by_cases hst : ld.stage = Stage.reports
    · rw [step_reportsResolved w i ld rdata hi hst h.mounted] at hch
      obtain ⟨d, hd, hinst⟩ := onInstance_ne _ _ _ hch
      exact h.load_of_mounted i ld d hi hd hinst
    · exact absurd (by simp [step, hi, hst]) hch

/-- C1, instance: list 1 was opened and left, list 2 is open, both loads are in flight.
The targets of list 1 arriving now change nothing; the targets of list 2 are applied. -/
theorem detail_last_request_wins_witness :
    exSuperseded.loads =
      [{ inst := 0, listId := 1, stage := Stage.targets },
       { inst := 1, listId := 2, stage := Stage.targets }] ∧
    (step exSuperseded (Event.targetsResolved 0 (some [exLink]))).detail
      = exSuperseded.detail ∧
    (step exSuperseded (Event.targetsResolved 1 (some [exLink]))).detail
      ≠ exSuperseded.detail ∧
    ∃ l, exSuperseded.app.currentPage = Page.list_detail ∧
      exSuperseded.app.selectedList = some l ∧
      ({ inst := 1, listId := 2, stage := Stage.targets } : Load).listId = l.id :=
  ⟨by decide, by decide, by decide,
   detail_last_request_wins exSuperseded ⟨_, rfl⟩ 1
     { inst := 1, listId := 2, stage := Stage.targets } (some [exLink]) none (by decide)
     (Or.inl (by decide))⟩

/-! ## Selecting a report -/

theorem Owned.of_fresh (l : ListRow) : Owned l (loadDataStart DetailState.initial) := by
  constructor
  · intro r hr; cases hr
  · intro r hr; cases hr

/-- What `onInstance` returns is the mounted instance, untouched or with `f` applied to
the state of the instance named. -/
theorem onInstance_some (n : Nat) (f : DetailState → DetailState) (det : Option DetailInst)
    (d : DetailInst) (h : onInstance n f det = some d) :
    ∃ d0, det = some d0 ∧ (d = d0 ∨ (d0.inst = n ∧ d.st = f d0.st)) := by
  unfold onInstance at h
  cases det with
  | none => cases h
  | some d0 =>
    refine ⟨d0, rfl, ?_⟩
    dsimp only at h
    split at h
    · rename_i hn
      cases h
      exact Or.inr ⟨hn, rfl⟩
    · cases h
      exact Or.inl rfl

theorem ReportsOwned.of_reconcile {w : World} (a : AppState) (h : ReportsOwned w)
    (hch : ∀ l l0, shownList a = some l → shownList w.app = some l0 → l = l0) :
    ReportsOwned (reconcile w a) := by
  unfold TwitterRadar.reconcile
  split
  · intro d l hd
    cases hd
  · rename_i l hsome
    split
    · rename_i l0 d hs0 hd0
      have hll : l = l0 := hch l l0 hsome hs0
      subst hll
      simp only [if_true]
      intro d1 l1 hd1 hs1
      have hs1 : shownList a = some l1 := hs1
      rw [hsome] at hs1
      cases hs1
      exact h d1 l hd1 hs0
    · intro d1 l1 hd1 hs1
      have hd1 : some { inst := w.nextInst, st := loadDataStart DetailState.initial } = some d1 :=
        hd1
      cases hd1
      exact Owned.of_fresh l1

theorem ReportsOwned.of_commit {w : World} (a : AppState) (h : ReportsOwned w)
    (hch : ∀ l l0, shownList a = some l → shownList w.app = some l0 → l = l0) :
    ReportsOwned (TwitterRadar.commit w a) := by
  intro d l hd hs
  unfold TwitterRadar.commit at hd hs
  rw [userEffect_detail] at hd
  rw [userEffect_app] at hs
  exact ReportsOwned.of_reconcile a h hch d l hd hs

theorem ReportsOwned.of_commit_hidden {w : World} (a : AppState) (h : ReportsOwned w)
    (ha : shownList a = none) : ReportsOwned (TwitterRadar.commit w a) :=
  ReportsOwned.of_commit a h (fun l l0 hl _ => by rw [ha] at hl; cases hl)

theorem ReportsOwned.of_commit_from_hidden {w : World} (a : AppState) (h : ReportsOwned w)
    (hw : shownList w.app = none) : ReportsOwned (TwitterRadar.commit w a) :=
  ReportsOwned.of_commit a h (fun l l0 _ hl0 => by rw [hw] at hl0; cases hl0)

/-- Writing the rows of a filtered reports response of list `l` keeps the state owned by
`l`; so does a failed response. -/
theorem Owned.of_loadDataReports {l : ListRow} {st : DetailState} (h : Owned l st)
    (data : Option (List Report))
    (hrows : ∀ rows, data = some rows → ∀ r ∈ rows, r.list_id = l.id) :
    Owned l (loadDataReports data st) := by
  cases data with
  | none => exact ⟨h.1, h.2⟩
  | some rows =>
    have hall := hrows rows rfl
    cases rows with
    | nil =>
      refine ⟨?_, h.2⟩
      intro r hr
      cases hr
    | cons r0 rs =>
      refine ⟨hall, ?_⟩
      intro r hr
      have hr : some r0 = some r := hr
      cases hr
      exact hall r0 (List.mem_cons_self _ _)

/-- Every event that respects the filter of the reports query keeps the reports of the
mounted `ListDetail` owned by the list shown. -/
theorem ReportsOwned.of_step {w : World} (e : Event) (h : Inv w) (h2 : ReportsOwned w)
    (hf : respectsFilter w e = true) : ReportsOwned (TwitterRadar.step w e) := by
  cases e with
  | sessionResolved session =>
    simp only [TwitterRadar.step]
    split
    · exact ReportsOwned.of_commit (w := { w with sessionPending := false }) _
        (fun d l hd hs => h2 d l hd hs)
        (fun l l0 hl hl0 => shownList_stable w.app _ (by rfl) l l0 hl hl0)
    · exact h2
  | authStateChange session =>
    simp only [TwitterRadar.step]
    exact ReportsOwned.of_commit _ h2
      (fun l l0 hl hl0 => shownList_stable w.app _ (by rfl) l l0 hl hl0)
  | listsResolved k data =>
    simp only [TwitterRadar.step]
    split
    · refine ReportsOwned.of_commit (w := { w with listFetches := w.listFetches.erase k }) _
        (fun d l hd hs => h2 d l hd hs) ?_
      intro l l0 hl hl0
      refine shownList_stable w.app _ ?_ l l0 hl hl0
      cases data <;> rfl
    · exact h2
  | loginClick => exact h2
  | logoutClick =>
    simp only [TwitterRadar.step]
    split
    · exact fun d l hd hs => h2 d l hd hs
    · exact h2
  | signOutSettled r =>
    have hw : ReportsOwned { w with signOuts := w.signOuts - 1 } :=
      fun d l hd hs => h2 d l hd hs
    have hh : shownList (handleLogoutThen w.app) = none := by
      simp [shownList, handleLogoutThen]
    cases r with
    | rejected =>
      simp only [TwitterRadar.step]
      split
      · exact hw
      · exact h2
    | ok =>
      simp only [TwitterRadar.step]
      split
      · exact ReportsOwned.of_commit_hidden _ hw hh
      · exact h2
    | error =>
      simp only [TwitterRadar.step]
      split
      · exact ReportsOwned.of_commit_hidden _ hw hh
      · exact h2
  | openMenu =>
    simp only [TwitterRadar.step]
    split
    · exact ReportsOwned.of_commit _ h2
        (fun l l0 hl hl0 => shownList_stable w.app _ (by rfl) l l0 hl hl0)
    · exact h2
  | closeMenu =>
    simp only [TwitterRadar.step]
    split
    · exact ReportsOwned.of_commit _ h2
        (fun l l0 hl hl0 => shownList_stable w.app _ (by rfl) l l0 hl hl0)
    · exact h2
  | menuClick item =>
    simp only [TwitterRadar.step]
    split
    · rename_i hg
      refine ReportsOwned.of_commit_hidden _ h2 ?_
      have hi : item = Page.home ∨ item = Page.settings := by
        simpa [menuItems] using hg.2
      rcases hi with hi | hi <;> simp [shownList, sidebarItemClick, hi]
    · exact h2
  | listClick list =>
    simp only [TwitterRadar.step]
    split
    · rename_i hg
      refine ReportsOwned.of_commit_from_hidden _ h2 ?_
      simp [shownList, hg.2.1]
    · exact h2
  | back =>
    simp only [TwitterRadar.step]
    split
    · exact ReportsOwned.of_commit_hidden _ h2 (by simp [shownList, onBack])
    · exact h2
  | tabClick tab =>
    simp only [TwitterRadar.step]
    split
    · rename_i d hd
      split
      · refine ReportsOwned.of_commit
          (w := { w with detail := some { d with st := setActiveTab tab d.st } })
          _ ?_ (fun l l0 hl hl0 => shownList_stable w.app _ (by rfl) l l0 hl hl0)
        intro d1 l hd1 hs
        have hd1 : some { d with st := setActiveTab tab d.st } = some d1 := hd1
        cases hd1
        exact h2 d l hd hs
      · exact h2
    · exact h2
  | reportClick report =>
    simp only [TwitterRadar.step]
    split
    · rename_i d hd
      split
      · rename_i hg
        refine ReportsOwned.of_commit
          (w := { w with detail := some { d with st := setSelectedReport report d.st } })
          _ ?_ (fun l l0 hl hl0 => shownList_stable w.app _ (by rfl) l l0 hl hl0)
        intro d1 l hd1 hs
        have hd1 : some { d with st := setSelectedReport report d.st } = some d1 := hd1
        cases hd1
        have ho := h2 d l hd hs
        refine ⟨ho.1, ?_⟩
        intro r hr
        have hr : some report = some r := hr
        cases hr
        exact ho.1 report hg.2.2.2
      · exact h2
    · exact h2
  | targetsResolved i data =>
    simp only [TwitterRadar.step]
    split
    · rename_i ld hld
      split
      · refine ReportsOwned.of_commit _ ?_
          (fun l l0 hl hl0 => shownList_stable w.app _ (by rfl) l l0 hl hl0)
        intro d1 l hd1 hs
        obtain ⟨d0, hd0, hcase⟩ := onInstance_some _ _ _ d1 hd1
        have ho := h2 d0 l hd0 hs
        rcases hcase with hcase | ⟨_, hcase⟩
        · rw [hcase]; exact ho
        · rw [hcase]
          cases data with
          | none => exact ho
          | some rows => exact ⟨ho.1, ho.2⟩
      · exact h2
    · exact h2
  | reportsResolved i data =>
    simp only [TwitterRadar.step]
    split
    · rename_i ld hld
      split
      · refine ReportsOwned.of_commit _ ?_
          (fun l l0 hl hl0 => shownList_stable w.app _ (by rfl) l l0 hl hl0)
        intro d1 l hd1 hs
        obtain ⟨d0, hd0, hcase⟩ := onInstance_some _ _ _ d1 hd1
        have ho := h2 d0 l hd0 hs
        rcases hcase with hcase | ⟨hinst, hcase⟩
        · rw [hcase]; exact ho
        · rw [hcase]
          have hcur : ld.listId = l.id :=
            h.loadsCurrent ld (List.getElem?_mem hld) d0 l hd0 hs hinst.symm
          refine Owned.of_loadDataReports ho data ?_
          intro rows hrows r hr
          subst hrows
          have hall : (rows.all fun r => decide (r.list_id = ld.listId)) = true := by
            simpa [respectsFilter, hld] using hf
          have := List.all_eq_true.1 hall r hr
          rw [← hcur]
          exact of_decide_eq_true this
      · exact h2
    · exact h2

theorem ReportsOwned.of_initial : ReportsOwned World.initial := by
  intro d l hd
  cases hd

/-- Every world reachable under filtered reports responses satisfies both invariants. -/
theorem ReachableFiltered.invariants {w : World} (h : ReachableFiltered w) :
    Inv w ∧ ReportsOwned w := by
  obtain ⟨es, hf, rfl⟩ := h
  have key : ∀ (es : List Event) (v : World), Inv v → ReportsOwned v →
      allRespectFilter v es = true → Inv (run v es) ∧ ReportsOwned (run v es) := by
    intro es
    induction es with
    | nil => intro v h1 h2 _; exact ⟨h1, h2⟩
    | cons e es ih =>
      intro v h1 h2 hf
      have hf : (respectsFilter v e && allRespectFilter (step v e) es) = true := hf
      rw [Bool.and_eq_true] at hf
      exact ih (step v e) (Inv.step e h1) (ReportsOwned.of_step e h1 h2 hf.1) hf.2
  exact key es World.initial Inv.initial ReportsOwned.of_initial hf

/-- C4: in every world reachable when the reports query returns rows of the list asked
for, with the detail of list `l` shown, selecting a report `r` whose `list_id` differs
from `l.id` leaves the whole world, and so the whole detail state and its selected
report, unchanged: no button of the reports tab carries such a report. The report
that is selected, if any, belongs to `l`. -/
theorem selectReport_rejects_foreign_report (w : World) (hw : ReachableFiltered w)
    (l : ListRow) (r : Report) (hs : shownList w.app = some l) (hr : r.list_id ≠ l.id) :
    step w (Event.reportClick r) = w ∧
    (step w (Event.reportClick r)).detail.map (fun d => d.st.selectedReport)
      = w.detail.map (fun d => d.st.selectedReport) ∧
    ∀ d r0, w.detail = some d → d.st.selectedReport = some r0 → r0.list_id = l.id := by
  have h2 := hw.invariants.2
  have hstep : step w (Event.reportClick r) = w := by
    simp only [step]
    split
    · rename_i d hd
      split
      · rename_i hg
        exact absurd ((h2 d l hd hs).1 r hg.2.2.2) hr
      · rfl
    · rfl
  refine ⟨hstep, by rw [hstep], ?_⟩
  intro d r0 hd hsel
  exact (h2 d l hd hs).2 r0 hsel

/-- C4, instance: list 1 is shown on the reports tab with its report 7 selected;
selecting report 8, a row of list 2, changes nothing. -/
theorem selectReport_rejects_foreign_report_witness :
    shownList exLoaded.app = some exList1 ∧
    exReport2.list_id ≠ exList1.id ∧
    exLoaded.detail.map (fun d => d.st.selectedReport) = some (some exReport1) ∧
    step exLoaded (Event.reportClick exReport2) = exLoaded :=
  ⟨by decide, by decide, by decide,
   (selectReport_rejects_foreign_report exLoaded ⟨_, by decide, rfl⟩ exList1 exReport2
      (by decide) (by decide)).1⟩

end TwitterRadar
